import Mathlib

/-!
Verification of the patch-extraction utility `_sliding_window_snapshots`
(src/utils/preprocessing.py) of the HERE-competition repository.

The function receives a numeric array, rank-normalizes it towards the
batched layout (N, C, H, W), builds the sliding windows with
`numpy.lib.stride_tricks.sliding_window_view` over the last two axes,
subsamples the window-position axes with the basic slice `::stride`,
permutes the axes to (N, H_pos, W_pos, C, kH, kW), reshapes to
(-1, C, kH, kW) and finally squeezes away every singleton axis.

An n-dimensional array is embedded as a shape together with a total
indexing function (multi-index, row-major semantics for reshape).  Each
numpy / torch primitive used by the source is modelled separately, with
the error cases those primitives raise; the Python function is then the
literal composition of those primitives.
-/

/-- Errors surfaced by the pipeline, one constructor per distinct Python
error site: the explicit `AssertionError` for a missing argument, the
numpy axis-out-of-bounds error of `sliding_window_view` on arrays of rank
below 2, the numpy `ValueError` when the window exceeds an axis, the
numpy `IndexError` for too many indices, the Python `ValueError` for a
slice step of zero, the torch error when `permute` receives a number of
dims different from the tensor rank, and the torch error when
`reshape(-1, ...)` cannot divide the element count. -/
inductive Err where
  | assertionFail
  | axisOutOfBounds
  | windowTooLarge
  | tooManyIndices
  | zeroStep
  | permuteDimsMismatch
  | reshapeMismatch
deriving DecidableEq, Repr

/-- Shallow embedding of a numeric n-dimensional array: a shape and a
total map from multi-indices to values.  Values out of bounds are
irrelevant noise (the operations below never read them on the index sets
the theorems quantify over). -/
structure NDArray where
  shape : List Nat
  get : List Nat → Int

/-- Row-major flat offset of a multi-index (the C-order ravel used by
numpy and torch). -/
def flatIndex : List Nat → List Nat → Nat
  | _ :: ds, i :: is => i * ds.prod + flatIndex ds is
  | _, _ => 0

/-- Inverse of `flatIndex`: unravel a flat offset into a multi-index of
the given shape (row-major). -/
def unflatten : List Nat → Nat → List Nat
  | [], _ => []
  | _ :: ds, k => (k / ds.prod) :: unflatten ds (k % ds.prod)

/-- Build a concrete array from a row-major data list. -/
def NDArray.ofList (shape : List Nat) (data : List Int) : NDArray :=
  { shape := shape, get := fun ix => data.getD (flatIndex shape ix) 0 }

/-- The numpy `arr[None, ...]`: prepend a length-1 axis. -/
def unsqueeze0 (a : NDArray) : NDArray :=
  { shape := 1 :: a.shape, get := fun ix => a.get (ix.drop 1) }

/-- Index transformation realised by `sliding_window_view(·, (kH, kW),
axis=(-2, -1))` on an array of rank `r`: the window position and the
offset inside the window along each of the two trailing axes add up. -/
def swvIndex (r : Nat) (ix : List Nat) : List Nat :=
  let front := ix.take (r - 2)
  let rest := ix.drop (r - 2)
  front ++ [rest.getD 0 0 + rest.getD 2 0, rest.getD 1 0 + rest.getD 3 0]

/-- Model of `numpy.lib.stride_tricks.sliding_window_view(arr,
window_shape=(kH, kW), axis=(-2, -1))`.  The two window axes are appended
after the existing axes, whose two trailing extents shrink to the window
position counts.  Rank below 2 makes axis -2 invalid (numpy AxisError); a
window larger than its axis raises a ValueError. -/
def sliding_window_view (a : NDArray) (kH kW : Nat) : Except Err NDArray :=
  let r := a.shape.length
  if 2 ≤ r then
    let H := a.shape.getD (r - 2) 0
    let W := a.shape.getD (r - 1) 0
    if kH ≤ H ∧ kW ≤ W then
      .ok { shape := a.shape.take (r - 2) ++ [H - kH + 1, W - kW + 1, kH, kW],
            get := fun ix => a.get (swvIndex r ix) }
    else .error .windowTooLarge
  else .error .axisOutOfBounds

/-- Number of elements selected by the Python basic slice `::s` from an
axis of length `n` (both directions): ceil(n / |s|). -/
def sliceLen (n : Nat) (s : Int) : Nat :=
  (n + s.natAbs - 1) / s.natAbs

/-- Source index selected by the Python basic slice `::s` at position `i`:
`i * s` for a positive step, and `(n - 1) - i * |s|` for a negative step
(traversal starts at the last element and walks backwards). -/
def sliceIdx (n : Nat) (s : Int) (i : Nat) : Nat :=
  if 0 < s then i * s.toNat else (n - 1) - i * s.natAbs

/-- Model of the numpy indexing `w[:, :, ::s, ::s, :, :]`: six index
entries (an IndexError when the rank is below 6), a ValueError when the
step is zero, otherwise axes 2 and 3 are subsampled with step `s`. -/
def subsample23 (a : NDArray) (s : Int) : Except Err NDArray :=
  if a.shape.length < 6 then .error .tooManyIndices
  else if s = 0 then .error .zeroStep
  else
    let n2 := a.shape.getD 2 0
    let n3 := a.shape.getD 3 0
    .ok { shape := (a.shape.set 2 (sliceLen n2 s)).set 3 (sliceLen n3 s),
          get := fun ix =>
            a.get ((ix.set 2 (sliceIdx n2 s (ix.getD 2 0))).set 3
                     (sliceIdx n3 s (ix.getD 3 0))) }

/-- Model of `tensor.permute(0, 2, 3, 1, 4, 5)`: requires exactly six
dims, and moves old axis 1 (the channel axis) behind the two window
position axes. -/
def permute023145 (a : NDArray) : Except Err NDArray :=
  match a.shape with
  | [d0, d1, d2, d3, d4, d5] =>
      .ok { shape := [d0, d2, d3, d1, d4, d5],
            get := fun ix =>
              a.get [ix.getD 0 0, ix.getD 3 0, ix.getD 1 0,
                     ix.getD 2 0, ix.getD 4 0, ix.getD 5 0] }
  | _ => .error .permuteDimsMismatch

/-- Model of `tensor.reshape(-1, C, H, W)`: row-major relabelling of the
logical element sequence; fails when the element count is not divisible
by `C*H*W` (or when that product is zero, so -1 cannot be inferred). -/
def reshapeNeg1 (a : NDArray) (C H W : Nat) : Except Err NDArray :=
  let total := a.shape.prod
  let q := C * H * W
  if q = 0 then .error .reshapeMismatch
  else if total % q ≠ 0 then .error .reshapeMismatch
  else .ok { shape := [total / q, C, H, W],
             get := fun ix => a.get (unflatten a.shape (flatIndex [total / q, C, H, W] ix)) }

/-- Re-insert the squeezed-away singleton positions into a multi-index of
the squeezed array, producing a multi-index of the original shape. -/
def unsqueezeIx : List Nat → List Nat → List Nat
  | [], _ => []
  | d :: ds, ix =>
      if d = 1 then 0 :: unsqueezeIx ds ix
      else ix.headD 0 :: unsqueezeIx ds (ix.drop 1)

/-- Model of `tensor.squeeze()`: drop every axis of extent 1. -/
def squeeze (a : NDArray) : NDArray :=
  { shape := a.shape.filter (fun d => d ≠ 1),
    get := fun ix => a.get (unsqueezeIx a.shape ix) }

/-- Rank normalization of the source (lines 57-64): rank 3 becomes
(1, C, H, W) with C read from axis 1 after the expansion, rank 2 becomes
(1, 1, H, W) with C = 1, and every other rank is left untouched with the
hard-coded channel count C = 3.  Returns the (possibly expanded) array
together with the channel count the source records. -/
def standardize (arr : NDArray) : NDArray × Nat :=
  if arr.shape.length = 3 then
    let arr2 := unsqueeze0 arr
    (arr2, arr2.shape.getD 1 0)
  else if arr.shape.length = 2 then
    (unsqueeze0 (unsqueeze0 arr), 1)
  else
    (arr, 3)

/-- The extraction pipeline after normalization (source lines 66-69):
sliding windows, `::stride` subsampling, `.copy()` and
`torch.from_numpy` (both identities on the value level), permute,
reshape. -/
def pipeline (na : NDArray) (C kH kW : Nat) (s : Int) : Except Err NDArray :=
  match sliding_window_view na kH kW with
  | .error e => .error e
  | .ok w1 =>
    match subsample23 w1 s with
    | .error e => .error e
    | .ok w2 =>
      match permute023145 w2 with
      | .error e => .error e
      | .ok w3 => reshapeNeg1 w3 C kH kW

/-- The body of `_sliding_window_snapshots` after the argument assertion,
up to and including the reshape — the value of `windows` on source line
69, before the final `.squeeze()`. -/
def snapshots_core (arr : NDArray) (kernel : Nat × Nat) (stride : Int) : Except Err NDArray :=
  let p := standardize arr
  pipeline p.1 p.2 kernel.1 kernel.2 stride

/-- Model of `_sliding_window_snapshots(arr, kernel, stride)`
(src/utils/preprocessing.py): an `AssertionError` when `kernel` or
`stride` is `None` — raised before the array is inspected in any way —
otherwise the pipeline followed by the final `.squeeze()`. -/
def _sliding_window_snapshots (arr : NDArray) (kernel : Option (Nat × Nat))
    (stride : Option Int) : Except Err NDArray :=
  match kernel, stride with
  | some k, some s => (snapshots_core arr k s).map squeeze
  | _, _ => .error .assertionFail

/-- Success projection of a pipeline result. -/
def resOk : Except Err NDArray → Bool
  | .ok _ => true
  | .error _ => false

/-- Shape of a successful pipeline result (empty on error). -/
def shapeOf : Except Err NDArray → List Nat
  | .ok a => a.shape
  | .error _ => []

/-- Element of a successful pipeline result (0 on error). -/
def entry (r : Except Err NDArray) (ix : List Nat) : Int :=
  match r with
  | .ok a => a.get ix
  | .error _ => 0

/-- Multi-index within the bounds of a shape (same length, each
coordinate below the corresponding extent). -/
def InBounds : List Nat → List Nat → Prop
  | [], [] => True
  | i :: is, d :: ds => i < d ∧ InBounds is ds
  | _, _ => False

theorem flatIndex_lt_prod (ix ds : List Nat) (h : InBounds ix ds) :
    flatIndex ds ix < ds.prod := by
  induction ix generalizing ds with
  | nil =>
    cases ds with
    | nil => decide
    | cons d ds => exact h.elim
  | cons i is ih =>
    cases ds with
    | nil => exact h.elim
    | cons d ds =>
      obtain ⟨h1, h2⟩ := h
      have hrec := ih ds h2
      simp only [flatIndex, List.prod_cons]
      have hstep : (i + 1) * ds.prod ≤ d * ds.prod :=
        Nat.mul_le_mul_right _ h1
      calc i * ds.prod + flatIndex ds is < i * ds.prod + ds.prod := by omega
        _ = (i + 1) * ds.prod := by ring
        _ ≤ d * ds.prod := hstep

theorem unflatten_flatIndex (ix ds : List Nat) (h : InBounds ix ds) :
    unflatten ds (flatIndex ds ix) = ix := by
  induction ix generalizing ds with
  | nil =>
    cases ds with
    | nil => rfl
    | cons d ds => exact h.elim
  | cons i is ih =>
    cases ds with
    | nil => exact h.elim
    | cons d ds =>
      obtain ⟨h1, h2⟩ := h
      have hlt := flatIndex_lt_prod is ds h2
      have hP : 0 < ds.prod := Nat.pos_of_ne_zero (by omega)
      simp only [flatIndex, unflatten]
      congr 1
      · rw [Nat.mul_comm i, Nat.mul_add_div hP, Nat.div_eq_of_lt hlt]
        omega
      · rw [Nat.mul_comm i, Nat.mul_add_mod, Nat.mod_eq_of_lt hlt]
        exact ih ds h2

theorem swv_ok4 (a : NDArray) (N C H W kH kW : Nat)
    (hsh : a.shape = [N, C, H, W]) (h1 : kH ≤ H) (h2 : kW ≤ W) :
    sliding_window_view a kH kW =
      .ok { shape := [N, C, H - kH + 1, W - kW + 1, kH, kW],
            get := fun ix => a.get (swvIndex 4 ix) } := by
  simp [sliding_window_view, hsh, List.getD, h1, h2]

theorem subsample23_ok6 (a : NDArray) (d0 d1 d2 d3 d4 d5 : Nat) (s : Int)
    (hsh : a.shape = [d0, d1, d2, d3, d4, d5]) (hs : s ≠ 0) :
    subsample23 a s =
      .ok { shape := [d0, d1, sliceLen d2 s, sliceLen d3 s, d4, d5],
            get := fun ix =>
              a.get ((ix.set 2 (sliceIdx d2 s (ix.getD 2 0))).set 3
                       (sliceIdx d3 s (ix.getD 3 0))) } := by
  simp [subsample23, hsh, hs, List.getD, List.set]

theorem permute023145_ok (a : NDArray) (d0 d1 d2 d3 d4 d5 : Nat)
    (hsh : a.shape = [d0, d1, d2, d3, d4, d5]) :
    permute023145 a =
      .ok { shape := [d0, d2, d3, d1, d4, d5],
            get := fun ix =>
              a.get [ix.getD 0 0, ix.getD 3 0, ix.getD 1 0,
                     ix.getD 2 0, ix.getD 4 0, ix.getD 5 0] } := by
  simp only [permute023145, hsh]

theorem reshapeNeg1_ok (a : NDArray) (N Hp Wp C kH kW : Nat)
    (hsh : a.shape = [N, Hp, Wp, C, kH, kW])
    (hC : 0 < C) (hkH : 0 < kH) (hkW : 0 < kW) :
    reshapeNeg1 a C kH kW =
      .ok { shape := [N * Hp * Wp, C, kH, kW],
            get := fun ix =>
              a.get (unflatten [N, Hp, Wp, C, kH, kW]
                       (flatIndex [N * Hp * Wp, C, kH, kW] ix)) } := by
  have hq : C * kH * kW ≠ 0 := by positivity
  have htot : N * (Hp * (Wp * (C * (kH * kW))))
      = N * Hp * Wp * (C * kH * kW) := by ring
  have hmod : N * (Hp * (Wp * (C * (kH * kW)))) % (C * kH * kW) = 0 := by
    rw [htot]; exact Nat.mul_mod_left _ _
  have hdiv : N * (Hp * (Wp * (C * (kH * kW)))) / (C * kH * kW)
      = N * Hp * Wp := by
    rw [htot]; exact Nat.mul_div_cancel _ (Nat.pos_of_ne_zero hq)
  simp [reshapeNeg1, hsh, hmod, hdiv, hq]

theorem swv_ok4E (a : NDArray) (N C H W kH kW : Nat)
    (hsh : a.shape = [N, C, H, W]) (h1 : kH ≤ H) (h2 : kW ≤ W) :
    ∃ w, sliding_window_view a kH kW = .ok w ∧
      w.shape = [N, C, H - kH + 1, W - kW + 1, kH, kW] ∧
      ∀ ix, w.get ix = a.get (swvIndex 4 ix) :=
  ⟨_, swv_ok4 a N C H W kH kW hsh h1 h2, rfl, fun _ => rfl⟩

theorem subsample23_ok6E (a : NDArray) (d0 d1 d2 d3 d4 d5 : Nat) (s : Int)
    (hsh : a.shape = [d0, d1, d2, d3, d4, d5]) (hs : s ≠ 0) :
    ∃ w, subsample23 a s = .ok w ∧
      w.shape = [d0, d1, sliceLen d2 s, sliceLen d3 s, d4, d5] ∧
      ∀ ix, w.get ix =
        a.get ((ix.set 2 (sliceIdx d2 s (ix.getD 2 0))).set 3
                 (sliceIdx d3 s (ix.getD 3 0))) :=
  ⟨_, subsample23_ok6 a d0 d1 d2 d3 d4 d5 s hsh hs, rfl, fun _ => rfl⟩

theorem permute023145_okE (a : NDArray) (d0 d1 d2 d3 d4 d5 : Nat)
    (hsh : a.shape = [d0, d1, d2, d3, d4, d5]) :
    ∃ w, permute023145 a = .ok w ∧
      w.shape = [d0, d2, d3, d1, d4, d5] ∧
      ∀ ix, w.get ix =
        a.get [ix.getD 0 0, ix.getD 3 0, ix.getD 1 0,
               ix.getD 2 0, ix.getD 4 0, ix.getD 5 0] :=
  ⟨_, permute023145_ok a d0 d1 d2 d3 d4 d5 hsh, rfl, fun _ => rfl⟩

theorem reshapeNeg1_okE (a : NDArray) (N Hp Wp C kH kW : Nat)
    (hsh : a.shape = [N, Hp, Wp, C, kH, kW])
    (hC : 0 < C) (hkH : 0 < kH) (hkW : 0 < kW) :
    ∃ w, reshapeNeg1 a C kH kW = .ok w ∧
      w.shape = [N * Hp * Wp, C, kH, kW] ∧
      ∀ ix, w.get ix =
        a.get (unflatten [N, Hp, Wp, C, kH, kW]
                 (flatIndex [N * Hp * Wp, C, kH, kW] ix)) :=
  ⟨_, reshapeNeg1_ok a N Hp Wp C kH kW hsh hC hkH hkW, rfl, fun _ => rfl⟩

theorem pipeline_spec (na : NDArray) (N C H W kH kW : Nat) (s : Int)
    (hsh : na.shape = [N, C, H, W]) (hC : 0 < C)
    (hkH0 : 0 < kH) (hkH : kH ≤ H) (hkW0 : 0 < kW) (hkW : kW ≤ W)
    (hs : s ≠ 0) :
    resOk (pipeline na C kH kW s) = true ∧
    shapeOf (pipeline na C kH kW s)
      = [N * sliceLen (H - kH + 1) s * sliceLen (W - kW + 1) s, C, kH, kW] ∧
    ∀ n i j c a b, n < N → i < sliceLen (H - kH + 1) s →
      j < sliceLen (W - kW + 1) s → c < C → a < kH → b < kW →
      entry (pipeline na C kH kW s)
          [(n * sliceLen (H - kH + 1) s + i) * sliceLen (W - kW + 1) s + j, c, a, b]
        = na.get [n, c, sliceIdx (H - kH + 1) s i + a,
                  sliceIdx (W - kW + 1) s j + b] := by
  obtain ⟨w1, e1, s1, g1⟩ := swv_ok4E na N C H W kH kW hsh hkH hkW
  obtain ⟨w2, e2, s2, g2⟩ :=
    subsample23_ok6E w1 N C (H - kH + 1) (W - kW + 1) kH kW s s1 hs
  obtain ⟨w3, e3, s3, g3⟩ :=
    permute023145_okE w2 N C (sliceLen (H - kH + 1) s) (sliceLen (W - kW + 1) s)
      kH kW s2
  obtain ⟨w4, e4, s4, g4⟩ :=
    reshapeNeg1_okE w3 N (sliceLen (H - kH + 1) s) (sliceLen (W - kW + 1) s)
      C kH kW s3 hC hkH0 hkW0
  have epipe : pipeline na C kH kW s = .ok w4 := by
    simp only [pipeline, e1, e2, e3, e4]
  refine ⟨by rw [epipe]; rfl, by rw [epipe]; exact s4, ?_⟩
  intro n i j c a b hn hi hj hc ha hb
  rw [epipe]
  simp only [entry]
  rw [g4]
  have hfl : flatIndex
      [N * sliceLen (H - kH + 1) s * sliceLen (W - kW + 1) s, C, kH, kW]
      [(n * sliceLen (H - kH + 1) s + i) * sliceLen (W - kW + 1) s + j, c, a, b]
      = flatIndex [N, sliceLen (H - kH + 1) s, sliceLen (W - kW + 1) s, C, kH, kW]
          [n, i, j, c, a, b] := by
    simp [flatIndex, List.prod_cons]; ring
  rw [hfl, unflatten_flatIndex [n, i, j, c, a, b]
    [N, sliceLen (H - kH + 1) s, sliceLen (W - kW + 1) s, C, kH, kW]
    ⟨hn, hi, hj, hc, ha, hb, trivial⟩]
  rw [g3]
  simp only [List.getD, List.get?, Option.getD]
  rw [g2]
  simp only [List.set, List.getD, List.get?, Option.getD]
  rw [g1]
  simp [swvIndex, List.getD]

theorem snapshots_core_eq (arr : NDArray) (kH kW : Nat) (s : Int) :
    snapshots_core arr (kH, kW) s
      = pipeline (standardize arr).1 (standardize arr).2 kH kW s := rfl

theorem sliding_map_squeeze (arr : NDArray) (k : Nat × Nat) (s : Int) :
    _sliding_window_snapshots arr (some k) (some s)
      = (snapshots_core arr k s).map squeeze := rfl

theorem resOk_map_squeeze (r : Except Err NDArray) :
    resOk (r.map squeeze) = resOk r := by
  cases r <;> rfl

theorem standardize_rank4 (arr : NDArray) (N C H W : Nat)
    (hsh : arr.shape = [N, C, H, W]) : standardize arr = (arr, 3) := by
  unfold standardize
  rw [if_neg (by simp [hsh]), if_neg (by simp [hsh])]

theorem sliceLen_pos_step (m : Nat) (s : Int) (hs : 0 < s) :
    sliceLen (m + 1) s = m / s.toNat + 1 := by
  have hab : s.natAbs = s.toNat := by omega
  have hpos : 0 < s.toNat := by omega
  unfold sliceLen
  rw [hab, show m + 1 + s.toNat - 1 = m + s.toNat by omega,
    Nat.add_div_right _ hpos]

theorem sliceIdx_pos_step (m : Nat) (s : Int) (hs : 0 < s) (i : Nat) :
    sliceIdx m s i = i * s.toNat := by
  simp [sliceIdx, hs]

theorem sliceIdx_neg_step (m : Nat) (s : Int) (hs : s < 0) (i : Nat) :
    sliceIdx m s i = (m - 1) - i * s.natAbs := by
  have h0 : ¬ (0 < s) := by omega
  simp [sliceIdx, h0]

/-- Content specification of the pre-squeeze value of
`_sliding_window_snapshots` for every input on which the recorded channel
count agrees with the true channel dimension of the rank-normalized
array (all rank-2 and rank-3 inputs, and rank-4 inputs with exactly 3
channels). -/
theorem core_spec_matched (arr : NDArray) (N C0 H W kH kW : Nat) (s : Int)
    (h1 : (standardize arr).1.shape = [N, C0, H, W])
    (h2 : (standardize arr).2 = C0)
    (hC : 0 < C0) (hkH0 : 0 < kH) (hkH : kH ≤ H)
    (hkW0 : 0 < kW) (hkW : kW ≤ W) (hs : s ≠ 0) :
    resOk (snapshots_core arr (kH, kW) s) = true ∧
    shapeOf (snapshots_core arr (kH, kW) s)
      = [N * sliceLen (H - kH + 1) s * sliceLen (W - kW + 1) s, C0, kH, kW] ∧
    ∀ n i j c a b, n < N → i < sliceLen (H - kH + 1) s →
      j < sliceLen (W - kW + 1) s → c < C0 → a < kH → b < kW →
      entry (snapshots_core arr (kH, kW) s)
          [(n * sliceLen (H - kH + 1) s + i) * sliceLen (W - kW + 1) s + j, c, a, b]
        = (standardize arr).1.get
            [n, c, sliceIdx (H - kH + 1) s i + a,
             sliceIdx (W - kW + 1) s j + b] := by
  rw [snapshots_core_eq, h2]
  exact pipeline_spec (standardize arr).1 N C0 H W kH kW s h1 hC hkH0 hkH hkW0 hkW hs

theorem swv_shape_length (a : NDArray) (kH kW : Nat) (w : NDArray)
    (h : sliding_window_view a kH kW = .ok w) :
    w.shape.length = a.shape.length + 2 := by
  simp only [sliding_window_view] at h
  split at h
  · split at h
    · cases h
      simp only [List.length_append, List.length_take, List.length_cons,
        List.length_nil]
      omega
    · cases h
  · cases h

theorem subsample23_shape_length (a : NDArray) (s : Int) (w : NDArray)
    (h : subsample23 a s = .ok w) :
    w.shape.length = a.shape.length := by
  unfold subsample23 at h
  split at h
  · cases h
  · split at h
    · cases h
    · cases h
      simp

theorem permute023145_err_of_ne6 (a : NDArray) (h : a.shape.length ≠ 6) :
    permute023145 a = .error .permuteDimsMismatch := by
  unfold permute023145
  split
  · rename_i d0 d1 d2 d3 d4 d5 heq
    exact absurd (by rw [heq]; rfl) h
  · rfl

/-- C1 (amended): for every input on which the recorded channel count
matches the true channel dimension of the rank-normalized (N, C, H, W)
array — all rank-2 and rank-3 inputs, and rank-4 inputs with exactly 3
channels — with kernel (kH, kW) within the spatial extents and positive
stride s, the pre-squeeze output of `_sliding_window_snapshots` consists
exactly of the copied sub-windows `array[n, :, i*s : i*s+kH, j*s : j*s+kW]`
of the rank-normalized array, the patch for (sample n, vertical position
i, horizontal position j) sitting at flat index ((n*Hpos + i)*Wpos + j);
in particular, for stride 1 and kernel (1,1) on a single-channel input
the patches are the individual elements, one patch per element, in
row-major-within-sample order.  (The unrestricted claim fails for rank-4
inputs whose channel count differs from the hard-coded 3, see the
counterexample.) -/
theorem C1_window_content (arr : NDArray) (N C0 H W kH kW : Nat) (s : Int)
    (h1 : (standardize arr).1.shape = [N, C0, H, W])
    (h2 : (standardize arr).2 = C0)
    (hC : 0 < C0) (hkH0 : 0 < kH) (hkH : kH ≤ H)
    (hkW0 : 0 < kW) (hkW : kW ≤ W) (hs : 0 < s) :
    (resOk (snapshots_core arr (kH, kW) s) = true ∧
     shapeOf (snapshots_core arr (kH, kW) s)
       = [N * sliceLen (H - kH + 1) s * sliceLen (W - kW + 1) s, C0, kH, kW] ∧
     ∀ n i j c a b, n < N → i < sliceLen (H - kH + 1) s →
       j < sliceLen (W - kW + 1) s → c < C0 → a < kH → b < kW →
       entry (snapshots_core arr (kH, kW) s)
           [(n * sliceLen (H - kH + 1) s + i) * sliceLen (W - kW + 1) s + j,
            c, a, b]
         = (standardize arr).1.get [n, c, i * s.toNat + a, j * s.toNat + b]) ∧
    (C0 = 1 → kH = 1 → kW = 1 → s = 1 →
     shapeOf (snapshots_core arr (kH, kW) s) = [N * H * W, 1, 1, 1] ∧
     ∀ n i j, n < N → i < H → j < W →
       entry (snapshots_core arr (kH, kW) s) [(n * H + i) * W + j, 0, 0, 0]
         = (standardize arr).1.get [n, 0, i, j]) := by
  have hns : s ≠ 0 := by omega
  obtain ⟨hok, hshape, hcont⟩ :=
    core_spec_matched arr N C0 H W kH kW s h1 h2 hC hkH0 hkH hkW0 hkW hns
  constructor
  · refine ⟨hok, hshape, ?_⟩
    intro n i j c a b hn hi hj hc ha hb
    rw [hcont n i j c a b hn hi hj hc ha hb,
      sliceIdx_pos_step _ s hs, sliceIdx_pos_step _ s hs]
  · intro hc1 hk1 hk2 hs1
    subst hc1; subst hk1; subst hk2; subst hs1
    have hslH : sliceLen (H - 1 + 1) (1 : Int) = H := by
      have : H - 1 + 1 = H := by omega
      rw [this]; simp [sliceLen]
    have hslW : sliceLen (W - 1 + 1) (1 : Int) = W := by
      have : W - 1 + 1 = W := by omega
      rw [this]; simp [sliceLen]
    constructor
    · rw [hshape, hslH, hslW]
    · intro n i j hn hi hj
      have hc := hcont n i j 0 0 0 hn (by rw [hslH]; exact hi)
        (by rw [hslW]; exact hj) (by decide) (by decide) (by decide)
      rw [hslH, hslW] at hc
      rw [hc]
      simp [sliceIdx]

/-- C1 counterexample: the rank-4 input of shape (1, 6, 1, 1) with values
10..15, kernel (1,1), stride 1, is a numeric array of rank 4 with kernel
within the spatial extents and positive stride, yet the pre-squeeze
output has shape (2, 3, 1, 1) — two patches of 3 channels — instead of
the claimed one patch per (n, i, j) of shape (C, kH, kW) = (6, 1, 1): the
hard-coded channel count 3 makes the reshape regroup the 6 channels into
2 patches (the second holding channels 3..5 of sample 0). -/
theorem C1_counterexample :
    shapeOf (snapshots_core (NDArray.ofList [1, 6, 1, 1]
        [10, 11, 12, 13, 14, 15]) (1, 1) 1) = [2, 3, 1, 1] ∧
    shapeOf (snapshots_core (NDArray.ofList [1, 6, 1, 1]
        [10, 11, 12, 13, 14, 15]) (1, 1) 1) ≠ [1 * 1 * 1, 6, 1, 1] ∧
    entry (snapshots_core (NDArray.ofList [1, 6, 1, 1]
        [10, 11, 12, 13, 14, 15]) (1, 1) 1) [1, 0, 0, 0] = 13 := by
  decide

/-- C2 (amended): for every input on which the recorded channel count
matches the true channel dimension of the rank-normalized (N, C, H, W)
array — all rank-2 and rank-3 inputs, and rank-4 inputs with exactly 3
channels — with kernel (kH, kW), kH ≤ H and kW ≤ W, and positive stride
s, the total number of patches produced equals
N × (⌊(H−kH)/s⌋+1) × (⌊(W−kW)/s⌋+1).  (The unrestricted claim fails for
rank-4 inputs whose channel count differs from the hard-coded 3, see the
counterexample.) -/
theorem C2_patch_count (arr : NDArray) (N C0 H W kH kW : Nat) (s : Int)
    (h1 : (standardize arr).1.shape = [N, C0, H, W])
    (h2 : (standardize arr).2 = C0)
    (hC : 0 < C0) (hkH0 : 0 < kH) (hkH : kH ≤ H)
    (hkW0 : 0 < kW) (hkW : kW ≤ W) (hs : 0 < s) :
    resOk (snapshots_core arr (kH, kW) s) = true ∧
    (shapeOf (snapshots_core arr (kH, kW) s)).headD 0
      = N * ((H - kH) / s.toNat + 1) * ((W - kW) / s.toNat + 1) := by
  have hns : s ≠ 0 := by omega
  obtain ⟨hok, hshape, -⟩ :=
    core_spec_matched arr N C0 H W kH kW s h1 h2 hC hkH0 hkH hkW0 hkW hns
  refine ⟨hok, ?_⟩
  rw [hshape, sliceLen_pos_step (H - kH) s hs, sliceLen_pos_step (W - kW) s hs]
  rfl

/-- C2 counterexample: the rank-4 input of shape (1, 6, 2, 2) (values
0..23), kernel (1,1), stride 1, post-normalization shape (N, C, H, W) =
(1, 6, 2, 2), produces 8 patches, not the claimed
N × (⌊(H−kH)/s⌋+1) × (⌊(W−kW)/s⌋+1) = 1 × 2 × 2 = 4. -/
theorem C2_counterexample :
    (shapeOf (_sliding_window_snapshots (NDArray.ofList [1, 6, 2, 2]
        [0, 1, 2, 3, 4, 5, 6, 7, 8, 9, 10, 11, 12, 13, 14, 15, 16, 17, 18,
         19, 20, 21, 22, 23]) (some (1, 1)) (some 1))).headD 0 = 8 ∧
    (8 : Nat) ≠ 1 * ((2 - 1) / 1 + 1) * ((2 - 1) / 1 + 1) := by
  decide

/-- C3: for every input array whose rank is not 2, 3 or 4, calling
`_sliding_window_snapshots` (with kernel and stride supplied) produces no
result: the call always fails.  The rank check is not an explicit
precondition in the source; the fall-through branch records C = 3 and the
failure surfaces downstream (the numpy axis error of
`sliding_window_view` for ranks 0 and 1, the slice-step or permute
dimension error for ranks 5 and above), which the error taxonomy of the
specification
groups as the UnsupportedShape class. -/
theorem C3_bad_rank_errors (arr : NDArray) (k : Nat × Nat) (s : Int)
    (hr : arr.shape.length ≠ 2 ∧ arr.shape.length ≠ 3 ∧ arr.shape.length ≠ 4) :
    resOk (_sliding_window_snapshots arr (some k) (some s)) = false := by
  obtain ⟨hr2, hr3, hr4⟩ := hr
  rw [sliding_map_squeeze, resOk_map_squeeze]
  have hstd : standardize arr = (arr, 3) := by
    unfold standardize
    rw [if_neg hr3, if_neg hr2]
  have hcore : snapshots_core arr k s = pipeline arr 3 k.1 k.2 s := by
    show pipeline (standardize arr).1 (standardize arr).2 k.1 k.2 s
      = pipeline arr 3 k.1 k.2 s
    rw [hstd]
  rw [hcore]
  rcases Nat.lt_or_ge arr.shape.length 2 with hlt | hge
  · have he : sliding_window_view arr k.1 k.2 = .error .axisOutOfBounds := by
      simp only [sliding_window_view]
      rw [if_neg (by omega)]
    simp [pipeline, he, resOk]
  · cases e1 : sliding_window_view arr k.1 k.2 with
    | error e => simp [pipeline, e1, resOk]
    | ok w1 =>
      have hlen1 := swv_shape_length arr k.1 k.2 w1 e1
      cases e2 : subsample23 w1 s with
      | error e => simp [pipeline, e1, e2, resOk]
      | ok w2 =>
        have hlen2 := subsample23_shape_length w1 s w2 e2
        have hp : permute023145 w2 = .error .permuteDimsMismatch :=
          permute023145_err_of_ne6 w2 (by omega)
        simp [pipeline, e1, e2, hp, resOk]

/-- C3 witness at a concrete rank-1 array. -/
theorem C3_bad_rank_errors_witness :
    ((NDArray.ofList [5] [1, 2, 3, 4, 5]).shape.length ≠ 2 ∧
     (NDArray.ofList [5] [1, 2, 3, 4, 5]).shape.length ≠ 3 ∧
     (NDArray.ofList [5] [1, 2, 3, 4, 5]).shape.length ≠ 4) ∧
    resOk (_sliding_window_snapshots (NDArray.ofList [5] [1, 2, 3, 4, 5])
      (some (1, 1)) (some 1)) = false :=
  ⟨by decide,
   C3_bad_rank_errors (NDArray.ofList [5] [1, 2, 3, 4, 5]) (1, 1) 1 (by decide)⟩

/-- C4: on the (4,4) array holding 0..15 row-major, with kernel (2,2) and
stride 2, `_sliding_window_snapshots` returns a (4,2,2) tensor whose
patches, in order, are [[0,1],[4,5]], [[2,3],[6,7]], [[8,9],[12,13]],
[[10,11],[14,15]]. -/
theorem C4_end_to_end_example :
    shapeOf (_sliding_window_snapshots (NDArray.ofList [4, 4]
        [0, 1, 2, 3, 4, 5, 6, 7, 8, 9, 10, 11, 12, 13, 14, 15])
        (some (2, 2)) (some 2)) = [4, 2, 2] ∧
    (let r := _sliding_window_snapshots (NDArray.ofList [4, 4]
        [0, 1, 2, 3, 4, 5, 6, 7, 8, 9, 10, 11, 12, 13, 14, 15])
        (some (2, 2)) (some 2)
     entry r [0, 0, 0] = 0 ∧ entry r [0, 0, 1] = 1 ∧
     entry r [0, 1, 0] = 4 ∧ entry r [0, 1, 1] = 5 ∧
     entry r [1, 0, 0] = 2 ∧ entry r [1, 0, 1] = 3 ∧
     entry r [1, 1, 0] = 6 ∧ entry r [1, 1, 1] = 7 ∧
     entry r [2, 0, 0] = 8 ∧ entry r [2, 0, 1] = 9 ∧
     entry r [2, 1, 0] = 12 ∧ entry r [2, 1, 1] = 13 ∧
     entry r [3, 0, 0] = 10 ∧ entry r [3, 0, 1] = 11 ∧
     entry r [3, 1, 0] = 14 ∧ entry r [3, 1, 1] = 15) := by
  decide

/-- C5: the rank-normalization step records channel count C = 1 for every
rank-2 input (H, W), expanding it to (1, 1, H, W), and records C equal to
the first axis of the input for every rank-3 input (C, H, W), expanding it to
(1, C, H, W); in both cases the elements are untouched (the expansion is
a reshape, not a copy). -/
theorem C5_rank_normalization (arr : NDArray) (c h w : Nat) :
    (arr.shape = [h, w] →
      (standardize arr).1.shape = [1, 1, h, w] ∧
      (standardize arr).2 = 1 ∧
      ∀ i j, (standardize arr).1.get [0, 0, i, j] = arr.get [i, j]) ∧
    (arr.shape = [c, h, w] →
      (standardize arr).1.shape = [1, c, h, w] ∧
      (standardize arr).2 = c ∧
      ∀ ch i j, (standardize arr).1.get [0, ch, i, j] = arr.get [ch, i, j]) := by
  constructor
  · intro hsh
    unfold standardize
    rw [if_neg (by simp [hsh]), if_pos (by simp [hsh])]
    exact ⟨by simp [unsqueeze0, hsh], rfl, fun i j => rfl⟩
  · intro hsh
    unfold standardize
    rw [if_pos (by simp [hsh])]
    refine ⟨by simp [unsqueeze0, hsh], ?_, fun ch i j => rfl⟩
    simp [unsqueeze0, hsh, List.getD]

/-- C5 witness at a concrete rank-2 and a concrete rank-3 array. -/
theorem C5_rank_normalization_witness :
    ((NDArray.ofList [2, 2] [1, 2, 3, 4]).shape = [2, 2] ∧
     (standardize (NDArray.ofList [2, 2] [1, 2, 3, 4])).1.shape = [1, 1, 2, 2] ∧
     (standardize (NDArray.ofList [2, 2] [1, 2, 3, 4])).2 = 1) ∧
    ((NDArray.ofList [3, 2, 2] (List.replicate 12 7)).shape = [3, 2, 2] ∧
     (standardize (NDArray.ofList [3, 2, 2] (List.replicate 12 7))).1.shape
       = [1, 3, 2, 2] ∧
     (standardize (NDArray.ofList [3, 2, 2] (List.replicate 12 7))).2 = 3) :=
  ⟨⟨rfl,
    ((C5_rank_normalization (NDArray.ofList [2, 2] [1, 2, 3, 4]) 0 2 2).1 rfl).1,
    ((C5_rank_normalization (NDArray.ofList [2, 2] [1, 2, 3, 4]) 0 2 2).1 rfl).2.1⟩,
   ⟨rfl,
    ((C5_rank_normalization (NDArray.ofList [3, 2, 2] (List.replicate 12 7))
        3 2 2).2 rfl).1,
    ((C5_rank_normalization (NDArray.ofList [3, 2, 2] (List.replicate 12 7))
        3 2 2).2 rfl).2.1⟩⟩

/-- C6: whenever the pipeline succeeds, the returned tensor is the
squeeze of the pre-squeeze value: its shape is the pre-squeeze shape with
every singleton axis removed, and no axis of extent 1 remains — in
particular a C = 1 channel axis is gone, and so is the leading batch axis
when the patch count is 1. -/
theorem C6_squeeze_behavior (arr : NDArray) (k : Nat × Nat) (s : Int)
    (hok : resOk (snapshots_core arr k s) = true) :
    shapeOf (_sliding_window_snapshots arr (some k) (some s))
      = (shapeOf (snapshots_core arr k s)).filter (fun d => d ≠ 1) ∧
    ¬ (1 ∈ shapeOf (_sliding_window_snapshots arr (some k) (some s))) := by
  rw [sliding_map_squeeze]
  cases e : snapshots_core arr k s with
  | error err => rw [e] at hok; simp [resOk] at hok
  | ok a =>
    refine ⟨rfl, ?_⟩
    simp [shapeOf, Except.map, squeeze, List.mem_filter]

/-- C6 witness at the concrete (4,4) example: the pre-squeeze shape is
(4,1,2,2) and the squeeze removes the singleton channel axis. -/
theorem C6_squeeze_behavior_witness :
    resOk (snapshots_core (NDArray.ofList [4, 4]
        [0, 1, 2, 3, 4, 5, 6, 7, 8, 9, 10, 11, 12, 13, 14, 15]) (2, 2) 2)
      = true ∧
    shapeOf (_sliding_window_snapshots (NDArray.ofList [4, 4]
        [0, 1, 2, 3, 4, 5, 6, 7, 8, 9, 10, 11, 12, 13, 14, 15])
        (some (2, 2)) (some 2))
      = (shapeOf (snapshots_core (NDArray.ofList [4, 4]
          [0, 1, 2, 3, 4, 5, 6, 7, 8, 9, 10, 11, 12, 13, 14, 15])
          (2, 2) 2)).filter (fun d => d ≠ 1) :=
  ⟨by decide,
   (C6_squeeze_behavior (NDArray.ofList [4, 4]
      [0, 1, 2, 3, 4, 5, 6, 7, 8, 9, 10, 11, 12, 13, 14, 15])
      (2, 2) 2 (by decide)).1⟩

/-- C7: with `kernel = None` or `stride = None` the call raises the
assertion error; the result is the same constant error for every input
array (the statement quantifies over an arbitrary array and never
inspects it), which is the embedding of "no array access occurs on this
error path". -/
theorem C7_missing_arguments (arr : NDArray) (kernel : Option (Nat × Nat))
    (stride : Option Int) (h : kernel = none ∨ stride = none) :
    _sliding_window_snapshots arr kernel stride = .error .assertionFail := by
  rcases h with h | h
  · subst h; cases stride <;> rfl
  · subst h; cases kernel <;> rfl

/-- C7 witness at a concrete array with a missing stride. -/
theorem C7_missing_arguments_witness :
    _sliding_window_snapshots (NDArray.ofList [2, 2] [1, 2, 3, 4])
      (some (1, 1)) none = .error .assertionFail :=
  C7_missing_arguments (NDArray.ofList [2, 2] [1, 2, 3, 4])
    (some (1, 1)) none (Or.inr rfl)

/-- C8: whenever the kernel exceeds the height or the width of the
rank-normalized array, the call fails with the error propagated from
`sliding_window_view` (the out-of-bounds window error), for every
stride. -/
theorem C8_kernel_out_of_bounds (arr : NDArray) (N C0 H W kH kW : Nat) (s : Int)
    (h1 : (standardize arr).1.shape = [N, C0, H, W])
    (hk : H < kH ∨ W < kW) :
    _sliding_window_snapshots arr (some (kH, kW)) (some s)
      = .error .windowTooLarge := by
  have hswv : sliding_window_view (standardize arr).1 kH kW
      = .error .windowTooLarge := by
    simp only [sliding_window_view, h1]
    rw [if_pos (by simp), if_neg]
    simp [List.getD]
    omega
  rw [sliding_map_squeeze, snapshots_core_eq]
  simp [pipeline, hswv, Except.map]

/-- C9: for every rank-4 input whose actual channel dimension is 3, with
kernel within the spatial extents and positive stride, the hard-coded
channel count coincides with the true one, so the documented contract
holds exactly: N × Hpos × Wpos patches (Hpos = ⌊(H−kH)/s⌋+1,
Wpos = ⌊(W−kW)/s⌋+1) of shape (3, kH, kW), the patch for (n, i, j) at
flat index (n·Hpos + i)·Wpos + j holding the sub-window
arr[n, :, i·s : i·s+kH, j·s : j·s+kW]. -/
theorem C9_rank4_three_channels (arr : NDArray) (N H W kH kW : Nat) (s : Int)
    (hsh : arr.shape = [N, 3, H, W])
    (hkH0 : 0 < kH) (hkH : kH ≤ H) (hkW0 : 0 < kW) (hkW : kW ≤ W)
    (hs : 0 < s) :
    resOk (snapshots_core arr (kH, kW) s) = true ∧
    shapeOf (snapshots_core arr (kH, kW) s)
      = [N * ((H - kH) / s.toNat + 1) * ((W - kW) / s.toNat + 1), 3, kH, kW] ∧
    ∀ n i j c a b, n < N → i < (H - kH) / s.toNat + 1 →
      j < (W - kW) / s.toNat + 1 → c < 3 → a < kH → b < kW →
      entry (snapshots_core arr (kH, kW) s)
          [(n * ((H - kH) / s.toNat + 1) + i) * ((W - kW) / s.toNat + 1) + j,
           c, a, b]
        = arr.get [n, c, i * s.toNat + a, j * s.toNat + b] := by
  have hns : s ≠ 0 := by omega
  have hstd := standardize_rank4 arr N 3 H W hsh
  have h1 : (standardize arr).1.shape = [N, 3, H, W] := by rw [hstd]; exact hsh
  have h2 : (standardize arr).2 = 3 := by rw [hstd]
  obtain ⟨hok, hshape, hcont⟩ :=
    core_spec_matched arr N 3 H W kH kW s h1 h2 (by decide) hkH0 hkH hkW0 hkW hns
  have hslH := sliceLen_pos_step (H - kH) s hs
  have hslW := sliceLen_pos_step (W - kW) s hs
  refine ⟨hok, by rw [hshape, hslH, hslW], ?_⟩
  intro n i j c a b hn hi hj hc ha hb
  have hcc := hcont n i j c a b hn (by rw [hslH]; exact hi)
    (by rw [hslW]; exact hj) hc ha hb
  rw [hslH, hslW, hstd, sliceIdx_pos_step _ s hs, sliceIdx_pos_step _ s hs] at hcc
  exact hcc

/-- C9 witness: a (1,3,2,2) batch, kernel (1,1), stride 1. -/
theorem C9_rank4_three_channels_witness :
    (NDArray.ofList [1, 3, 2, 2]
        [0, 1, 2, 3, 4, 5, 6, 7, 8, 9, 10, 11]).shape = [1, 3, 2, 2] ∧
    resOk (snapshots_core (NDArray.ofList [1, 3, 2, 2]
        [0, 1, 2, 3, 4, 5, 6, 7, 8, 9, 10, 11]) (1, 1) 1) = true ∧
    shapeOf (snapshots_core (NDArray.ofList [1, 3, 2, 2]
        [0, 1, 2, 3, 4, 5, 6, 7, 8, 9, 10, 11]) (1, 1) 1)
      = [1 * ((2 - 1) / (1 : Int).toNat + 1) * ((2 - 1) / (1 : Int).toNat + 1),
         3, 1, 1] :=
  ⟨rfl,
   (C9_rank4_three_channels (NDArray.ofList [1, 3, 2, 2]
      [0, 1, 2, 3, 4, 5, 6, 7, 8, 9, 10, 11]) 1 2 2 1 1 1 rfl
      (by decide) (by decide) (by decide) (by decide) (by decide)).1,
   (C9_rank4_three_channels (NDArray.ofList [1, 3, 2, 2]
      [0, 1, 2, 3, 4, 5, 6, 7, 8, 9, 10, 11]) 1 2 2 1 1 1 rfl
      (by decide) (by decide) (by decide) (by decide) (by decide)).2.1⟩

/-- C10: the source never validates the stride.  With stride 0 the
kernel/stride precondition check passes and the call fails only at the
window-subsampling step (the slice-step-zero error, not the assertion
error); with a negative stride no error is raised at all, and the patches
are taken at window positions traversed in reverse order, position index
i mapping to source window position (H − kH) − i·|s| (and likewise for
the width axis), starting from the last window position. -/
theorem C10_stride_not_validated (arr : NDArray) (N C0 H W kH kW : Nat) :
    ((standardize arr).1.shape = [N, C0, H, W] → kH ≤ H → kW ≤ W →
      _sliding_window_snapshots arr (some (kH, kW)) (some 0)
        = .error .zeroStep) ∧
    (∀ s : Int, s < 0 → (standardize arr).1.shape = [N, C0, H, W] →
      (standardize arr).2 = C0 → 0 < C0 → 0 < kH → kH ≤ H → 0 < kW → kW ≤ W →
      resOk (_sliding_window_snapshots arr (some (kH, kW)) (some s)) = true ∧
      shapeOf (snapshots_core arr (kH, kW) s)
        = [N * sliceLen (H - kH + 1) s * sliceLen (W - kW + 1) s, C0, kH, kW] ∧
      ∀ n i j c a b, n < N → i < sliceLen (H - kH + 1) s →
        j < sliceLen (W - kW + 1) s → c < C0 → a < kH → b < kW →
        entry (snapshots_core arr (kH, kW) s)
            [(n * sliceLen (H - kH + 1) s + i) * sliceLen (W - kW + 1) s + j,
             c, a, b]
          = (standardize arr).1.get
              [n, c, (H - kH) - i * s.natAbs + a,
               (W - kW) - j * s.natAbs + b]) := by
  constructor
  · intro h1 hkH hkW
    obtain ⟨w1, e1, s1, g1⟩ :=
      swv_ok4E (standardize arr).1 N C0 H W kH kW h1 hkH hkW
    have e2 : subsample23 w1 0 = .error .zeroStep := by
      simp [subsample23, s1]
    rw [sliding_map_squeeze, snapshots_core_eq]
    simp [pipeline, e1, e2, Except.map]
  · intro s hs h1 h2 hC hkH0 hkH hkW0 hkW
    have hns : s ≠ 0 := by omega
    obtain ⟨hok, hshape, hcont⟩ :=
      core_spec_matched arr N C0 H W kH kW s h1 h2 hC hkH0 hkH hkW0 hkW hns
    refine ⟨by rw [sliding_map_squeeze, resOk_map_squeeze]; exact hok,
      hshape, ?_⟩
    intro n i j c a b hn hi hj hc ha hb
    have hcc := hcont n i j c a b hn hi hj hc ha hb
    rw [sliceIdx_neg_step _ s hs, sliceIdx_neg_step _ s hs] at hcc
    simpa using hcc

/-- C10 witness: the (4,4) image with kernel (2,2): stride 0 fails at the
subsampling step, stride -2 succeeds. -/
theorem C10_stride_not_validated_witness :
    (standardize (NDArray.ofList [4, 4]
        [0, 1, 2, 3, 4, 5, 6, 7, 8, 9, 10, 11, 12, 13, 14, 15])).1.shape
      = [1, 1, 4, 4] ∧
    _sliding_window_snapshots (NDArray.ofList [4, 4]
        [0, 1, 2, 3, 4, 5, 6, 7, 8, 9, 10, 11, 12, 13, 14, 15])
        (some (2, 2)) (some 0) = .error .zeroStep ∧
    resOk (_sliding_window_snapshots (NDArray.ofList [4, 4]
        [0, 1, 2, 3, 4, 5, 6, 7, 8, 9, 10, 11, 12, 13, 14, 15])
        (some (2, 2)) (some (-2))) = true :=
  ⟨rfl,
   (C10_stride_not_validated (NDArray.ofList [4, 4]
      [0, 1, 2, 3, 4, 5, 6, 7, 8, 9, 10, 11, 12, 13, 14, 15])
      1 1 4 4 2 2).1 rfl (by decide) (by decide),
   ((C10_stride_not_validated (NDArray.ofList [4, 4]
      [0, 1, 2, 3, 4, 5, 6, 7, 8, 9, 10, 11, 12, 13, 14, 15])
      1 1 4 4 2 2).2 (-2) (by decide) rfl rfl (by decide) (by decide)
      (by decide) (by decide) (by decide)).1⟩

/-- C1 witness: a (2,3) image, kernel (1,2), stride 1. -/
theorem C1_window_content_witness :
    (standardize (NDArray.ofList [2, 3] [10, 11, 12, 20, 21, 22])).1.shape
      = [1, 1, 2, 3] ∧
    resOk (snapshots_core (NDArray.ofList [2, 3] [10, 11, 12, 20, 21, 22])
      (1, 2) 1) = true ∧
    entry (snapshots_core (NDArray.ofList [2, 3] [10, 11, 12, 20, 21, 22])
        (1, 2) 1)
        [(0 * sliceLen (2 - 1 + 1) 1 + 1) * sliceLen (3 - 2 + 1) 1 + 1, 0, 0, 1]
      = (standardize (NDArray.ofList [2, 3] [10, 11, 12, 20, 21, 22])).1.get
          [0, 0, 1 * (1 : Int).toNat + 0, 1 * (1 : Int).toNat + 1] :=
  ⟨rfl,
   (C1_window_content (NDArray.ofList [2, 3] [10, 11, 12, 20, 21, 22])
      1 1 2 3 1 2 1 rfl rfl (by decide) (by decide) (by decide) (by decide)
      (by decide) (by decide)).1.1,
   (C1_window_content (NDArray.ofList [2, 3] [10, 11, 12, 20, 21, 22])
      1 1 2 3 1 2 1 rfl rfl (by decide) (by decide) (by decide) (by decide)
      (by decide) (by decide)).1.2.2 0 1 1 0 0 1 (by decide) (by decide)
      (by decide) (by decide) (by decide) (by decide)⟩

/-- C2 witness: a (2,3,3) rank-3 input, kernel (2,2), stride 1. -/
theorem C2_patch_count_witness :
    (standardize (NDArray.ofList [2, 3, 3] (List.replicate 18 5))).1.shape
      = [1, 2, 3, 3] ∧
    resOk (snapshots_core (NDArray.ofList [2, 3, 3] (List.replicate 18 5))
      (2, 2) 1) = true ∧
    (shapeOf (snapshots_core (NDArray.ofList [2, 3, 3] (List.replicate 18 5))
        (2, 2) 1)).headD 0
      = 1 * ((3 - 2) / (1 : Int).toNat + 1) * ((3 - 2) / (1 : Int).toNat + 1) :=
  ⟨rfl,
   (C2_patch_count (NDArray.ofList [2, 3, 3] (List.replicate 18 5))
      1 2 3 3 2 2 1 rfl rfl (by decide) (by decide) (by decide) (by decide)
      (by decide) (by decide)).1,
   (C2_patch_count (NDArray.ofList [2, 3, 3] (List.replicate 18 5))
      1 2 3 3 2 2 1 rfl rfl (by decide) (by decide) (by decide) (by decide)
      (by decide) (by decide)).2⟩

/-- C8 witness: a (2,2) image with kernel (3,1). -/
theorem C8_kernel_out_of_bounds_witness :
    (standardize (NDArray.ofList [2, 2] [1, 2, 3, 4])).1.shape = [1, 1, 2, 2] ∧
    _sliding_window_snapshots (NDArray.ofList [2, 2] [1, 2, 3, 4])
      (some (3, 1)) (some 1) = .error .windowTooLarge :=
  ⟨rfl,
   C8_kernel_out_of_bounds (NDArray.ofList [2, 2] [1, 2, 3, 4])
     1 1 2 2 3 1 1 rfl (Or.inl (by decide))⟩

